import Mathlib

/-!
Verification development for the TablueMeta repository: a pipeline that
extracts dashboard metadata from PDF exports (heuristic regex/OCR path in
`extract_metadata_from_pdfs.py`, LLM path in `extract_metadata_from_pdf_llm.py`)
and builds / queries a per-workbook vector index (`app.py`).

The embedding works over `List Char` models of Python strings; Python string
methods used by the source (`strip`, `lower`, `join`, `splitlines`, `replace`,
`in`, slicing) are given explicit executable definitions.  External
collaborators (the embedding API, the text-generation API, the PDF reader, the
OCR engine, `json.loads`) are passed in as function parameters.
-/

namespace TablueMeta

/-! ## Python string primitives (over `List Char`) -/

/-- Python `str.isspace` set, restricted to ASCII as used by the repository. -/
def isPyWs (c : Char) : Bool :=
  c = ' ' || c = '\t' || c = '\n' || c = '\r' || c = '\x0b' || c = '\x0c'

/-- ASCII lowercasing of a single character, as Python `str.lower` acts on
the ASCII inputs handled by this repository. -/
def asciiLower (c : Char) : Char :=
  if 'A' ≤ c ∧ c ≤ 'Z' then Char.ofNat (c.toNat + 32) else c

/-- Python `str.lower` on a character list. -/
def lowerL (cs : List Char) : List Char := cs.map asciiLower

/-- Strip characters belonging to `set` from the left end. -/
def stripLeftOn (set : Char → Bool) (cs : List Char) : List Char :=
  cs.dropWhile set

/-- Python `str.strip(chars)` over a character predicate: drop from both ends. -/
def stripOn (set : Char → Bool) (cs : List Char) : List Char :=
  ((cs.dropWhile set).reverse.dropWhile set).reverse

/-- Python `str.strip()` (whitespace). -/
def pyStripL (cs : List Char) : List Char := stripOn isPyWs cs

/-- Python `str.strip(" :\n\t")` as used on captured KPI names. -/
def stripNameL (cs : List Char) : List Char :=
  stripOn (fun c => c = ' ' || c = ':' || c = '\n' || c = '\t') cs

/-- Python `str.strip()` on `String`. -/
def pyStrip (s : String) : String := String.mk (pyStripL s.data)

/-- Python `str.lower()` on `String`. -/
def pyLower (s : String) : String := String.mk (lowerL s.data)

/-- Python `sep.join(parts)`. -/
def pyJoin (sep : String) : List String → String
  | [] => ""
  | x :: xs => xs.foldl (fun acc y => acc ++ sep ++ y) x

/-- Does `needle` occur as a prefix of `hay`? -/
def isPrefixL : List Char → List Char → Bool
  | [], _ => true
  | _ :: _, [] => false
  | n :: ns, h :: hs => n = h && isPrefixL ns hs

/-- Python `needle in hay` (substring containment) on character lists. -/
def containsL (needle : List Char) : List Char → Bool
  | [] => needle.isEmpty
  | h :: hs => isPrefixL needle (h :: hs) || containsL needle hs

/-- Python `str.endswith` on character lists. -/
def endsWithL (suffix hay : List Char) : Bool :=
  isPrefixL suffix.reverse hay.reverse

/-- Python `hay[:n]` char slicing. -/
def takeL (n : Nat) (cs : List Char) : List Char := cs.take n

/-- Python `str.splitlines()`; handles `\n`, `\r` and `\r\n`, and does not
emit a final empty line after a trailing line break. -/
def splitlinesL : List Char → List (List Char)
  | [] => []
  | cs => go cs []
where
  go : List Char → List Char → List (List Char)
    | [], acc => if acc.isEmpty then [] else [acc.reverse]
    | '\n' :: rest, acc => acc.reverse :: go rest []
    | '\r' :: '\n' :: rest, acc => acc.reverse :: go rest []
    | '\r' :: rest, acc => acc.reverse :: go rest []
    | c :: rest, acc => go rest (c :: acc)

/-- Python `re.sub(r"\s{2,}", " ", s)`: collapse each run of two or more
whitespace characters into a single space (a lone whitespace character is
kept as-is). -/
def collapseWs : List Char → List Char
  | [] => []
  | c :: rest =>
    if isPyWs c && (match rest with | d :: _ => isPyWs d | [] => false)
    then ' ' :: (collapseWs rest).tail
    else c :: collapseWs rest

/-- Python `re.search(r"\$\s?\d", s)` as a Boolean: a dollar sign followed by
an optional single whitespace and a digit. -/
def hasDollarNum : List Char → Bool
  | [] => false
  | '$' :: rest =>
    (match rest with
     | d :: _ => d.isDigit
     | [] => false)
    || (match rest with
        | w :: d :: _ => isPyWs w && d.isDigit
        | _ => false)
    || hasDollarNum rest
  | _ :: rest => hasDollarNum rest

/-- Last index at which `c` occurs. -/
def lastIdxOf (c : Char) : List Char → Option Nat
  | [] => none
  | x :: xs =>
    match lastIdxOf c xs with
    | some i => some (i + 1)
    | none => if x = c then some 0 else none

/-- Python `os.path.basename` (POSIX separators), on character lists. -/
def basenameL (cs : List Char) : List Char :=
  cs.foldl (fun acc c => if c = '/' then [] else acc ++ [c]) []

/-- The stem part of Python `os.path.splitext`: everything before the last
dot, where leading dots of the name never start an extension. -/
def splitextStemL (cs : List Char) : List Char :=
  let lead := (cs.takeWhile (· = '.')).length
  let rest := cs.drop lead
  match lastIdxOf '.' rest with
  | none => cs
  | some i => cs.take (lead + i)

/-- `os.path.splitext(s)[0]` on `String`. -/
def splitextStem (s : String) : String := String.mk (splitextStemL s.data)

/-- `os.path.basename(s)` on `String`. -/
def pyBasename (s : String) : String := String.mk (basenameL s.data)

/-- Python `s.replace(" ", "_")` (single-character pattern, hence a map). -/
def replaceSpaceChar (c : Char) : Char := if c = ' ' then '_' else c

/-- Python `s.replace(" ", "_")` on `String`. -/
def pyReplaceSpace (s : String) : String := String.mk (s.data.map replaceSpaceChar)

/-- Python list indexing semantics: non-negative indices are positions from
the front, negative indices `i` with `-len ≤ i` resolve to `len + i`, and
anything else raises `IndexError` (modelled as `none`). -/
def pyGet {α : Type} (xs : List α) (i : Int) : Option α :=
  if 0 ≤ i then xs.get? i.toNat
  else if 0 ≤ (xs.length : Int) + i then xs.get? ((xs.length : Int) + i).toNat
  else none

/-! ## Data model -/

/-- A KPI record `{name, description}` as produced by the extractors. -/
structure Kpi where
  name : String
  description : String
deriving DecidableEq, Repr

/-- A dashboard metadata record
`{id, name, description, tags, url, kpis}` (`src/extract_metadata_from_pdfs.py`,
`process_pdf_file`, and the shape requested from the model in
`src/extract_metadata_from_pdf_llm.py`). -/
structure Dashboard where
  id : String
  name : String
  description : String
  tags : List String
  url : String
  kpis : List Kpi
deriving DecidableEq, Repr

/-- A text block extracted from a PDF page
(`extract_text_blocks_from_pdf`): concatenated span text, the maximum font
size seen in the block (a float, modelled as `ℚ`), and the 0-based page. -/
structure Block where
  text : String
  max_size : ℚ
  page : Nat
deriving DecidableEq, Repr

/-! ## A small backtracking regex engine

Python's `re` module is part of the source's algorithm (the KPI patterns in
`extract_metadata_from_pdfs.py`), so it is embedded explicitly: patterns are
regex pattern trees and matching is depth-first backtracking, which is the
order CPython's `sre` engine explores alternatives — greedy repetitions try
the longest continuation first, lazy ones the shortest, alternations go left
to right, and a repetition stops iterating when its body matches without
consuming input.  `finditer` scans for the leftmost match, then resumes after
the matched text. -/

/-- Regex shape: character classes, sequencing, alternation, bounded
repetition (greedy or lazy) and numbered capture groups. -/
inductive RE where
  | eps : RE
  | cls (p : Char → Bool) : RE
  | seq (a b : RE) : RE
  | alt (a b : RE) : RE
  | rep (lo : Nat) (hi : Option Nat) (greedy : Bool) (a : RE) : RE
  | grp (n : Nat) (a : RE) : RE

/-- Captured groups: most recent capture first (later captures of the same
group shadow earlier ones, as in Python). -/
abbrev Caps := List (Nat × List Char)

/-- Backtracking matcher in continuation-passing style.  `fuel` bounds the
depth of the matcher's call chains (one unit per pattern node visited and per
repetition iteration); the generous fuel supplied by `reFinditer` is never
exhausted on the repository's patterns, whose repetition bodies consume
input.  Recursion is structural on `fuel` so that the kernel can evaluate
matches on concrete inputs. -/
def reMatch {σ : Type} : Nat → RE → List Char → Caps →
    (List Char → Caps → Option σ) → Option σ
  | 0, _, _, _, _ => none
  | fuel + 1, r, s, caps, k =>
    match r with
    | .eps => k s caps
    | .cls p =>
      match s with
      | [] => none
      | c :: rest => if p c then k rest caps else none
    | .seq a b => reMatch fuel a s caps (fun s2 c2 => reMatch fuel b s2 c2 k)
    | .alt a b =>
      match reMatch fuel a s caps k with
      | some res => some res
      | none => reMatch fuel b s caps k
    | .grp n a =>
      reMatch fuel a s caps
        (fun s2 c2 => k s2 ((n, s.take (s.length - s2.length)) :: c2))
    | .rep lo hi greedy a =>
      if lo > 0 then
        reMatch fuel a s caps (fun s2 c2 =>
          reMatch fuel (.rep (lo - 1) (hi.map (· - 1)) greedy a) s2 c2 k)
      else
        match hi with
        | some 0 => k s caps
        | _ =>
          if greedy then
            match reMatch fuel a s caps (fun s2 c2 =>
                if s2.length = s.length then k s2 c2
                else reMatch fuel (.rep 0 (hi.map (· - 1)) greedy a) s2 c2 k) with
            | some res => some res
            | none => k s caps
          else
            match k s caps with
            | some res => some res
            | none =>
              reMatch fuel a s caps (fun s2 c2 =>
                if s2.length = s.length then k s2 c2
                else reMatch fuel (.rep 0 (hi.map (· - 1)) greedy a) s2 c2 k)

/-- One scanning step of `finditer`: try to match at the current position;
report the match (its consumed length and captures) and resume after it,
else slide one character. -/
def reFindAux (r : RE) : Nat → List Char → List Caps
  | 0, _ => []
  | scanFuel + 1, s =>
    match reMatch (s.length * 4 + 1000) r s []
        (fun rest caps => some (s.length - rest.length, caps)) with
    | some (len, caps) =>
      if len = 0 then
        caps :: (match s with
                 | [] => []
                 | _ :: t => reFindAux r scanFuel t)
      else caps :: reFindAux r scanFuel (s.drop len)
    | none =>
      match s with
      | [] => []
      | _ :: t => reFindAux r scanFuel t

/-- Python `pattern.finditer(s)`: the capture lists of all (non-overlapping,
leftmost-first) matches. -/
def reFinditer (r : RE) (s : List Char) : List Caps :=
  reFindAux r (s.length + 1) s

/-- Look up a capture group (empty if absent), as `m.groupdict().get(g, "")`. -/
def getCap (n : Nat) (caps : Caps) : List Char :=
  match caps.find? (fun pr => pr.1 = n) with
  | some pr => pr.2
  | none => []

/-- A one-character class. -/
def reChar (c : Char) : RE := .cls (fun x => x = c)

/-- Sequence a list of regexes. -/
def reSeqs (rs : List RE) : RE := rs.foldr RE.seq .eps

/-- Alternation over a non-empty list (left-to-right priority). -/
def reAlts : List RE → RE
  | [] => .cls (fun _ => false)
  | [r] => r
  | r :: rs => .alt r (reAlts rs)

/-- Case-insensitive literal word, for the `re.I` keyword alternation. -/
def reWordCI (w : String) : RE :=
  reSeqs (w.data.map (fun c => RE.cls (fun x => asciiLower x = asciiLower c)))

/-- `[A-Za-z0-9 &/._\-]` — the KPI-name class of patterns 1 and 2. -/
def isKpiNameChar (c : Char) : Bool :=
  c.isAlpha || c.isDigit || c = ' ' || c = '&' || c = '/' || c = '.' || c = '_' || c = '-'

/-- `[:\s\-]` — the separator class of patterns 1 and 2. -/
def isKpiSepChar (c : Char) : Bool :=
  c = ':' || isPyWs c || c = '-'

/-- `\d{1,3}(?:[\.,]\d+)?\s?%` — the percentage value of pattern 1. -/
def rePercentValue : RE :=
  reSeqs [ .rep 1 (some 3) true (.cls Char.isDigit),
           .rep 0 (some 1) true
             (.seq (.cls (fun c => c = '.' || c = ','))
                   (.rep 1 none true (.cls Char.isDigit))),
           .rep 0 (some 1) true (.cls isPyWs),
           reChar '%' ]

/-- KPI pattern 1:
`(?P<name>[A-Za-z0-9 &/._\-]{3,100})[:\s\-]{1,4}(?P<value>\d{1,3}(?:[\.,]\d+)?\s?%)`. -/
def kpiPattern1 : RE :=
  reSeqs [ .grp 1 (.rep 3 (some 100) true (.cls isKpiNameChar)),
           .rep 1 (some 4) true (.cls isKpiSepChar),
           .grp 2 rePercentValue ]

/-- KPI pattern 2:
`(?P<name>[A-Za-z0-9 &/._\-]{3,100})[:\s\-]{1,4}([$€£]?\d{1,3}(?:[,\d]{0,3})*(?:\.\d+)?)`
(the value group is unnamed, so `groupdict` never reports it). -/
def kpiPattern2 : RE :=
  reSeqs [ .grp 1 (.rep 3 (some 100) true (.cls isKpiNameChar)),
           .rep 1 (some 4) true (.cls isKpiSepChar),
           .grp 2 (reSeqs
             [ .rep 0 (some 1) true (.cls (fun c => c = '$' || c = '€' || c = '£')),
               .rep 1 (some 3) true (.cls Char.isDigit),
               .rep 0 none true
                 (.rep 0 (some 3) true (.cls (fun c => c = ',' || c.isDigit))),
               .rep 0 (some 1) true
                 (.seq (reChar '.') (.rep 1 none true (.cls Char.isDigit))) ]) ]

/-- The keyword alternation of pattern 3 (source order). -/
def kpiPattern3Keywords : List String :=
  ["rate", "ratio", "score", "count", "value", "variance", "growth", "mean",
   "avg", "average", "turnover", "conversion", "revenue", "sales", "churn",
   "retention"]

/-- KPI pattern 3 (compiled with `re.I`):
`(?P<name>(?:[A-Za-z ]{2,50}?(?:rate|ratio|…|retention)))\s+[:\-\–]?\s*(?P<value>\d{1,3}(?:[\.,]\d+)?\s?%?)`. -/
def kpiPattern3 : RE :=
  reSeqs [ .grp 1 (.seq
             (.rep 2 (some 50) false (.cls (fun c => c.isAlpha || c = ' ')))
             (reAlts (kpiPattern3Keywords.map reWordCI))),
           .rep 1 none true (.cls isPyWs),
           .rep 0 (some 1) true (.cls (fun c => c = ':' || c = '-' || c = '–')),
           .rep 0 none true (.cls isPyWs),
           .grp 2 (reSeqs
             [ .rep 1 (some 3) true (.cls Char.isDigit),
               .rep 0 (some 1) true
                 (.seq (.cls (fun c => c = '.' || c = ','))
                       (.rep 1 none true (.cls Char.isDigit))),
               .rep 0 (some 1) true (.cls isPyWs),
               .rep 0 (some 1) true (reChar '%') ]) ]

/-- `KPI_PATTERNS`, paired with whether the pattern names its value group. -/
def kpiPatterns : List (RE × Bool) :=
  [(kpiPattern1, true), (kpiPattern2, false), (kpiPattern3, true)]

/-! ## `extract_kpis_from_text` (src/extract_metadata_from_pdfs.py) -/

/-- `KPI_KEYWORDS` from the source (the line-heuristic layer's keyword list,
distinct from pattern 3's alternation). -/
def kpiKeywords : List String :=
  ["rate", "ratio", "score", "count", "value", "variance", "growth",
   "average", "mean", "turnover", "conversion", "revenue", "sales", "churn",
   "retention", "uptime", "mttr", "nps", "csat"]

/-- The threaded state of `extract_kpis_from_text`: the `found_names` set
(lower-cased names) and the accumulated KPI list, in insertion order. -/
abbrev KpiState := List (List Char) × List Kpi

/-- Layer 1 (pattern layer): one match's contribution.  Mirrors the body of
`for m in pat.finditer(text)`: strip the captured name on `" :\n\t"`, skip
empty names, collapse whitespace runs, deduplicate case-insensitively, and
attach `"Detected value: <value>"` when a (named) value was captured. -/
def kpiPatternStep (hasValueGroup : Bool) (st : KpiState) (caps : Caps) : KpiState :=
  let name := stripNameL (getCap 1 caps)
  let value := pyStripL (if hasValueGroup then getCap 2 caps else [])
  if name = [] then st
  else
    let name_clean := collapseWs name
    if lowerL name_clean ∈ st.1 then st
    else
      let desc := if value = [] then "" else String.mk ("Detected value: ".data ++ value)
      (st.1 ++ [lowerL name_clean], st.2 ++ [⟨String.mk name_clean, desc⟩])

/-- Layer 1: all three patterns, in source order, over all their matches. -/
def kpiLayer1 (text : List Char) : KpiState :=
  kpiPatterns.foldl
    (fun st pat => (reFinditer pat.1 text).foldl (kpiPatternStep pat.2) st)
    ([], [])

/-- Python `re.split(r"[:\-–]{1,2}", line, maxsplit=1)`: split at the
leftmost run of one or two separator characters; `none` when no separator
occurs (the one-part case). -/
def splitSepOnce : List Char → Option (List Char × List Char)
  | [] => none
  | c :: rest =>
    if c = ':' || c = '-' || c = '–' then
      match rest with
      | d :: rest2 =>
        if d = ':' || d = '-' || d = '–' then some ([], rest2) else some ([], rest)
      | [] => some ([], [])
    else
      match splitSepOnce rest with
      | some (pre, post) => some (c :: pre, post)
      | none => none

/-- Layer 2 (line-heuristic layer): one line's contribution.  Mirrors the
`for line in text.splitlines()` body. -/
def kpiLineStep (st : KpiState) (line : List Char) : KpiState :=
  let ls := pyStripL line
  if ls.length < 5 then st
  else
    let low := lowerL ls
    if ls.contains '%' || hasDollarNum ls
        || kpiKeywords.any (fun k => containsL k.data low) then
      match splitSepOnce ls with
      | some (p1, p2) =>
        let cand_name := pyStripL p1
        let cand_value := pyStripL p2
        if cand_name.length > 2 && lowerL cand_name ∉ st.1 then
          (st.1 ++ [lowerL cand_name],
           st.2 ++ [⟨String.mk cand_name,
                     String.mk ("Detected value: ".data ++ cand_value)⟩])
        else st
      | none =>
        let candidate_words := collapseWs ls
        if candidate_words.length > 10 && lowerL candidate_words ∉ st.1 then
          (st.1 ++ [lowerL candidate_words],
           st.2 ++ [⟨String.mk candidate_words, ""⟩])
        else st
    else st

/-- The candidate KPI list accumulated by layers 1 and 2 (the `kpis` local of
`extract_kpis_from_text` just before the final dedup pass). -/
def kpiCandidates (text : String) : List Kpi :=
  ((splitlinesL text.data).foldl kpiLineStep (kpiLayer1 text.data)).2

/-- The final pass of `extract_kpis_from_text`: dedupe by stripped,
lower-cased name, preserving first-seen order. -/
def kpiFinalDedup : List (List Char) → List Kpi → List Kpi
  | _, [] => []
  | seen, k :: ks =>
    let n := pyStripL k.name.data
    let ln := lowerL n
    if ln ∈ seen then kpiFinalDedup seen ks
    else ⟨String.mk n, k.description⟩ :: kpiFinalDedup (ln :: seen) ks

/-- `extract_kpis_from_text(text)`: pattern layer, then line-heuristic layer,
then the final order-preserving case-insensitive dedup. -/
def extract_kpis_from_text (text : String) : List Kpi :=
  kpiFinalDedup [] (kpiCandidates text)

/-! ## `choose_title_and_description` (src/extract_metadata_from_pdfs.py) -/

/-- The sort key `b["max_size"] or 0` (Python `or`: a falsy `0.0` becomes
`0`, which on the rational model is the identity written out). -/
def blockKey (b : Block) : ℚ := if b.max_size = 0 then 0 else b.max_size

/-- Stable descending insertion: the new element goes before the first
strictly smaller key, after earlier elements with an equal or larger key.
Folding `insertDesc` over the list from the right reproduces Python's stable
`sorted(candidate_blocks, key=…, reverse=True)`. -/
def insertDesc (x : Block) : List Block → List Block
  | [] => [x]
  | y :: ys => if blockKey x < blockKey y then y :: insertDesc x ys else x :: y :: ys

/-- `sorted(candidate_blocks, key=lambda b: b["max_size"] or 0, reverse=True)`. -/
def sortBlocksDesc (l : List Block) : List Block := l.foldr insertDesc []

/-- `first_page_blocks or blocks`: page-0 blocks when any exist, else all. -/
def candidateBlocks (blocks : List Block) : List Block :=
  let first_page_blocks := blocks.filter (fun b => b.page = 0)
  if first_page_blocks.isEmpty then blocks else first_page_blocks

/-- `choose_title_and_description(blocks)`: empty pair on no blocks; title is
the stripped text of the head of the stably descending-sorted candidates;
description is the space-join of up to 4 distinct non-title stripped block
texts in document order, finally stripped. -/
def choose_title_and_description (blocks : List Block) : String × String :=
  match blocks with
  | [] => ("", "")
  | _ :: _ =>
    let title :=
      match sortBlocksDesc (candidateBlocks blocks) with
      | [] => ""
      | b :: _ => pyStrip b.text
    let desc_parts :=
      (blocks.foldl (fun (st : List String × List String) b =>
        let t := pyStrip b.text
        if t ≠ "" ∧ t ≠ title ∧ st.1.length < 4 then
          if t ∉ st.2 then (st.1 ++ [t], st.2 ++ [t]) else st
        else st) ([], [])).1
    let description := pyStrip (pyJoin " " desc_parts)
    (title, description)

/-! ## `process_pdf_file` / `ocr_pdf` / `process_all_pdfs`
(src/extract_metadata_from_pdfs.py)

PDF rendering and OCR are external collaborators: a document is presented as
its extracted `Block` list plus a page count, and OCR is a function
`dpi → pageIndex → text`. -/

/-- `ocr_pdf(path, dpi, max_pages)`: OCR each page (a falsy `max_pages`
disables the cap) and join the page texts with newlines. -/
def ocr_pdf (pageOcr : Nat → Nat → String) (numPages : Nat)
    (dpi : Nat) (max_pages : Nat) : String :=
  let cap := if max_pages = 0 then numPages else min max_pages numPages
  pyJoin "\n" ((List.range cap).map (fun i => pageOcr dpi i))

/-- `" ".join([b["text"] for b in blocks])`. -/
def blocksFullText (blocks : List Block) : String :=
  pyJoin " " (blocks.map (fun b => b.text))

/-- The OCR-fallback test of `process_pdf_file`:
`len(full_text.strip()) < 50`. -/
def ocrFallbackUsed (blocks : List Block) : Bool :=
  (pyStripL (blocksFullText blocks).data).length < 50

/-- The text `process_pdf_file` ends up analysing: the direct block text, or
the OCR of the whole document (at 200 dpi, capped at 10 pages) when the
direct text is below the 50-character threshold. -/
def acquiredFullText (pageOcr : Nat → Nat → String) (numPages : Nat)
    (blocks : List Block) : String :=
  if ocrFallbackUsed blocks then ocr_pdf pageOcr numPages 200 10
  else blocksFullText blocks

/-- `process_pdf_file(path)` on a document given as its block list and page
count: chooses title/description, falls back to the filename stem as title,
extracts KPIs from the acquired text, and assembles the metadata record
(the heuristic path's `id` is the bare filename stem). -/
def process_pdf_file (pageOcr : Nat → Nat → String) (numPages : Nat)
    (path : String) (blocks : List Block) : Dashboard :=
  let full_text := acquiredFullText pageOcr numPages blocks
  let td := choose_title_and_description blocks
  let title := if td.1 = "" then splitextStem (pyBasename path) else td.1
  let combined_text := full_text
  let kpis := extract_kpis_from_text combined_text
  { id := splitextStem (pyBasename path),
    name := title,
    description :=
      if td.2 ≠ "" then td.2
      else String.mk (takeL 500 combined_text.data) ++ "...",
    tags := [],
    url := "",
    kpis := kpis }

/-- The PDF filter both batch drivers use:
`f.lower().endswith(".pdf")`. -/
def pdfFilter (files : List String) : List String :=
  files.filter (fun f => endsWithL ".pdf".data (lowerL f.data))

/-- `process_all_pdfs`: run the per-file processor (a collaborator wrapping
`process_pdf_file` together with its file I/O, so it may fail) on every PDF
in listing order; a failure is caught, logged and skipped. -/
def process_all_pdfs (processFile : String → Except String Dashboard)
    (files : List String) : List Dashboard :=
  (pdfFilter files).foldl
    (fun out p => match processFile p with
                  | .ok m => out ++ [m]
                  | .error _ => out) []

/-! ## LLM path (src/extract_metadata_from_pdf_llm.py) -/

/-- A JSON value, the shape `json.loads` produces. -/
inductive Json where
  | null : Json
  | bool (b : Bool) : Json
  | num (n : Int) : Json
  | str (s : String) : Json
  | arr (items : List Json) : Json
  | obj (fields : List (String × Json)) : Json

/-- Does an object carry a key? (Non-objects carry none.) -/
def Json.hasKey (j : Json) (k : String) : Bool :=
  match j with
  | .obj fs => fs.any (fun pr => pr.1 = k)
  | _ => false

/-- The required Dashboard fields of the spec's JSON schema
(`id, name, description, tags, url, kpis`).  Spec-side definition, used to
state what "missing required fields" means. -/
def requiredDashboardKeys : List String :=
  ["id", "name", "description", "tags", "url", "kpis"]

/-- A parsed model response carries every required Dashboard field. -/
def hasRequiredFields (j : Json) : Bool :=
  requiredDashboardKeys.all (fun k => j.hasKey k)

/-- The output-cleaning step of `extract_dashboard_metadata`: strip, cut a
leading `"```json"` (7 characters) and a trailing `"```"` (3 characters)
when present, strip again. -/
def cleanModelOutput (responseText : String) : String :=
  let output := pyStripL responseText.data
  let output := if isPrefixL "```json".data output then output.drop 7 else output
  let output :=
    if endsWithL "```".data output then output.take (output.length - 3) else output
  String.mk (pyStripL output)

/-- `extract_dashboard_metadata`, from the model response on: clean the
response text, parse it with the `json.loads` collaborator, return the parsed
value, or raise `ValueError` carrying the cleaned output when parsing fails
(the Python parser's own error text is abstracted away). -/
def extract_dashboard_metadata (parse : String → Option Json)
    (responseText : String) : Except String Json :=
  let output := cleanModelOutput responseText
  match parse output with
  | some metadata => .ok metadata
  | none => .error ("Gemini output is not valid JSON. Output was:\n" ++ output)

/-- `dashboard_id = f"{workbook_name}_{dashboard_name}".replace(" ", "_").lower()`
where `dashboard_name = os.path.splitext(file_name)[0]` (`process_workbook`). -/
def derive_dashboard_id (workbook_name file_name : String) : String :=
  pyLower (pyReplaceSpace (workbook_name ++ "_" ++ splitextStem file_name))

/-- `process_workbook`, over a directory listing: for each `.pdf` file derive
the dashboard id, run the read-and-extract step (a collaborator wrapping
`read_pdf` + `extract_dashboard_metadata`, which may raise), and collect the
metadata in order.  There is no `try` here: the first failure propagates and
aborts the whole workbook. -/
def process_workbook (step : String → String → Except String Json)
    (workbook_name : String) : List String → Except String (List Json)
  | [] => .ok []
  | f :: fs =>
    if endsWithL ".pdf".data (lowerL f.data) then
      match step (derive_dashboard_id workbook_name f) f with
      | .error e => .error e
      | .ok m =>
        match process_workbook step workbook_name fs with
        | .error e => .error e
        | .ok ms => .ok (m :: ms)
    else process_workbook step workbook_name fs

/-! ## Embedding build and search (src/app.py) -/

/-- The summary string embedded per dashboard (`generate_embeddings`):
`f"{name} - {' '.join(tags)} - {description} - {' '.join(kpi_texts)}"`. -/
def dashboard_text (d : Dashboard) : String :=
  let kpi_texts := d.kpis.map (fun k => k.name ++ " - " ++ k.description)
  d.name ++ " - " ++ pyJoin " " d.tags ++ " - " ++ d.description ++ " - "
    ++ pyJoin " " kpi_texts

/-- `generate_embeddings(dashboards, workbook_name)`, with the embedding API
as collaborator `embed`.  On an empty dashboard list `texts[0]` raises
`IndexError` before the index or metadata exist (`none`); otherwise vectors
are appended to the index and dashboards to the metadata list in one zip
loop, and the resulting pair is returned for persistence. -/
def generate_embeddings {V : Type} (embed : String → V)
    (dashboards : List Dashboard) : Option (List V × List Dashboard) :=
  let texts := dashboards.map dashboard_text
  match texts with
  | [] => none
  | _ :: _ =>
    some ((dashboards.zip texts).foldl
      (fun st dt => (st.1 ++ [embed dt.2], st.2 ++ [dt.1])) ([], []))

/-- The persisted store file pair for one workbook key, updated only when
`generate_embeddings` returns (an exception leaves every store untouched). -/
def build_store {V : Type} (embed : String → V) (dashboards : List Dashboard)
    (key : String) (store : String → Option (List V × List Dashboard)) :
    String → Option (List V × List Dashboard) :=
  match generate_embeddings embed dashboards with
  | none => store
  | some pair => fun k => if k = key then some pair else store k

/-- A loaded-or-missing store directory: `dashboards.index` is abstracted to
its nearest-neighbour query function (query vector and `top_k` in, a row of
(distance, position) pairs out, faiss-style with `Int` positions that can be
`-1`), `metadata.json` to the dashboard list. -/
structure Store (V δ : Type) where
  indexFile : Option (V → Nat → List (δ × Int))
  metaFile : Option (List Dashboard)

/-- What a search run can do: report the missing store (the
`st.error`-and-return branch), crash with a Python exception, or return
results. -/
inductive SearchOutcome (δ : Type) where
  | missingStore (msg : String) : SearchOutcome δ
  | crash : SearchOutcome δ
  | ok (results : List (Dashboard × δ)) : SearchOutcome δ

/-- The result-collection loop of `search_dashboards`:
`for dist, idx in zip(distances[0], indices[0]): if idx < len(metadata):
results.append((metadata[idx], dist))`, with Python list-index semantics (a
position below `-len` raises, so the whole loop fails). -/
def collect_results {δ : Type} (metadata : List Dashboard) :
    List (δ × Int) → Option (List (Dashboard × δ))
  | [] => some []
  | (dist, idx) :: rest =>
    if idx < (metadata.length : Int) then
      match pyGet metadata idx with
      | none => none
      | some d =>
        match collect_results metadata rest with
        | none => none
        | some res => some ((d, dist) :: res)
    else collect_results metadata rest

/-- Stable ascending insertion on the distance component, reproducing the
stable `results.sort(key=lambda x: x[1])`. -/
def insertByDist {δ : Type} [LinearOrder δ] (x : Dashboard × δ) :
    List (Dashboard × δ) → List (Dashboard × δ)
  | [] => [x]
  | y :: ys => if x.2 ≤ y.2 then x :: y :: ys else y :: insertByDist x ys

/-- `results.sort(key=lambda x: x[1])`. -/
def sortByDist {δ : Type} [LinearOrder δ] (l : List (Dashboard × δ)) :
    List (Dashboard × δ) := l.foldr insertByDist []

/-- `search_dashboards(query, top_k, workbook_name)`: when either store file
is missing, surface the generate-embeddings-first error; otherwise embed the
query, run the index query, keep the hits passing the `idx < len(metadata)`
check (resolving positions Python-style), and return them sorted by
distance. -/
def search_dashboards {V δ : Type} [LinearOrder δ] (embed : String → V)
    (store : Store V δ) (query : String) (top_k : Nat) : SearchOutcome δ :=
  match store.indexFile, store.metaFile with
  | some indexSearch, some metadata =>
    let hits := indexSearch (embed query) top_k
    match collect_results metadata hits with
    | none => .crash
    | some results => .ok (sortByDist results)
  | _, _ => .missingStore "Please generate embeddings first for this workbook."

/-! ## Concrete fixtures used to instantiate the theorems -/

/-- A small dashboard record. -/
def exDash0 : Dashboard :=
  { id := "wb_sales", name := "Sales Dashboard", description := "Quarterly sales overview",
    tags := ["sales"], url := "wb/sales.pdf",
    kpis := [⟨"Conversion Rate", "Detected value: 12.5%"⟩] }

/-- A second small dashboard record. -/
def exDash1 : Dashboard :=
  { id := "wb_finance", name := "Finance Dashboard", description := "Profit and cost summary",
    tags := ["finance"], url := "wb/finance.pdf", kpis := [] }

/-- A store whose index file is missing. -/
def missingStoreEx : Store Unit Int := ⟨none, some [exDash0]⟩

/-- An index query returning faiss's `-1` missing-neighbour sentinel, as
happens whenever `top_k` exceeds the number of stored vectors. -/
def staleIndexSearch : Unit → Nat → List (Int × Int) := fun _ _ => [(5, -1)]

/-- A store whose index reports a `-1` position. -/
def staleStoreEx : Store Unit Int := ⟨some staleIndexSearch, some [exDash0, exDash1]⟩

/-- An index query returning one in-bounds neighbour. -/
def okIndexSearch : Unit → Nat → List (Int × Int) := fun _ _ => [(7, 0)]

/-- A store whose index reports only valid positions. -/
def okStoreEx : Store Unit Int := ⟨some okIndexSearch, some [exDash0, exDash1]⟩

/-- The `json.loads` collaborator pinned at the concrete probe inputs (it
agrees with Python's `json.loads` there: `"\x7b\x7d"` parses to the empty
object, `"nope"` fails to parse). -/
def jsonLoadsStub : String → Option Json :=
  fun s => if s = "\x7b\x7d" then some (Json.obj []) else none

/-- A read-and-extract step that fails on `bad.pdf` and succeeds elsewhere,
modelling one unreadable document in a workbook folder. -/
def llmStepFail : String → String → Except String Json :=
  fun _ f => if f = "bad.pdf" then .error "unreadable PDF" else .ok (Json.obj [])

/-- The spec's title-selection example blocks. -/
def exBlocks : List Block := [⟨"A", 10, 0⟩, ⟨"B", 20, 0⟩, ⟨"C", 15, 1⟩]

/-- An OCR collaborator stub. -/
def ocrStub : Nat → Nat → String := fun _ i => "ocr page " ++ toString i

/-- A single block whose text is exactly 30 characters (below the 50
threshold). -/
def shortBlock : Block := ⟨"Quarterly revenue snapshot 30c", 12, 0⟩

/-- A single block whose text is 62 characters (above the 50 threshold). -/
def longBlock : Block :=
  ⟨"This dashboard tracks conversion rate and revenue by region...", 14, 0⟩

/-! # Theorems -/

/-! ## Helper lemmas -/

/-- The accumulation loop of `generate_embeddings` appends one vector and one
metadata entry per dashboard, in order. -/
theorem generate_embeddings_foldl {V : Type} (embed : String → V) :
    ∀ (l : List Dashboard) (acc : List V × List Dashboard),
      (l.zip (l.map dashboard_text)).foldl
        (fun st dt => (st.1 ++ [embed dt.2], st.2 ++ [dt.1])) acc
      = (acc.1 ++ l.map (fun d => embed (dashboard_text d)), acc.2 ++ l) := by
  intro l
  induction l with
  | nil => intro acc; simp
  | cons d ds ih =>
    intro acc
    simp only [List.map_cons, List.zip_cons_cons, List.foldl_cons, ih,
      List.append_assoc, List.singleton_append]

/-- On any non-empty input, `generate_embeddings` returns exactly the mapped
embedding list paired with the input list. -/
theorem generate_embeddings_eq {V : Type} (embed : String → V)
    (D : List Dashboard) (hD : D ≠ []) :
    generate_embeddings embed D =
      some (D.map (fun d => embed (dashboard_text d)), D) := by
  cases D with
  | nil => exact absurd rfl hD
  | cons d ds =>
    have hstep : generate_embeddings embed (d :: ds) =
        some (((d :: ds).zip ((d :: ds).map dashboard_text)).foldl
          (fun st dt => (st.1 ++ [embed dt.2], st.2 ++ [dt.1])) ([], [])) := rfl
    rw [hstep, generate_embeddings_foldl]
    simp

/-! ## C1 -/

/-- C1: for every dashboard list `D` on which `generate_embeddings` returns,
the produced index holds exactly `D.length` vectors, the `i`-th vector is the
embedding of `D[i]`'s summary text, and the persisted metadata list is `D`
itself — index position `i` always refers to `D[i]`. -/
theorem generate_embeddings_alignment {V : Type} (embed : String → V)
    (D : List Dashboard) (vecs : List V) (meta : List Dashboard)
    (h : generate_embeddings embed D = some (vecs, meta)) :
    meta = D ∧ vecs.length = D.length ∧
    ∀ i : Nat, vecs[i]? = (D[i]?).map (fun d => embed (dashboard_text d)) := by
  have hD : D ≠ [] := by
    rintro rfl
    simp [generate_embeddings] at h
  rw [generate_embeddings_eq embed D hD] at h
  simp only [Option.some.injEq, Prod.mk.injEq] at h
  obtain ⟨hv, hm⟩ := h
  subst hv
  subst hm
  exact ⟨rfl, by simp, fun i => by simp⟩

/-- Witness for C1 at a one-element list with a concrete embedding. -/
theorem generate_embeddings_alignment_witness :
    ([exDash0] : List Dashboard) = [exDash0] ∧
    [(dashboard_text exDash0).length].length = [exDash0].length ∧
    ∀ i : Nat, [(dashboard_text exDash0).length][i]? =
      (([exDash0] : List Dashboard)[i]?).map (fun d => (dashboard_text d).length) :=
  generate_embeddings_alignment (fun s => s.length) [exDash0]
    [(dashboard_text exDash0).length] [exDash0] rfl

/-! ## C10 -/

/-- C10: `generate_embeddings` on an empty dashboard list raises
(`texts[0]` → `IndexError`) before building or writing anything, so every
persisted store pair is left unchanged, and a successful build implies a
non-empty input. -/
theorem generate_embeddings_empty_input_guard {V : Type} (embed : String → V) :
    generate_embeddings embed ([] : List Dashboard) = none ∧
    (∀ key store, build_store embed [] key store = store) ∧
    (∀ (D : List Dashboard) pr, generate_embeddings embed D = some pr → D ≠ []) := by
  refine ⟨rfl, fun key store => rfl, fun D pr h hD => ?_⟩
  subst hD
  simp [generate_embeddings] at h

/-- Witness for C10: a concrete non-empty build succeeds, and the theorem's
third part certifies the input was non-empty. -/
theorem generate_embeddings_empty_input_guard_witness :
    ([exDash0] : List Dashboard) ≠ [] :=
  (generate_embeddings_empty_input_guard (fun s => s.length)).2.2 [exDash0]
    ([(dashboard_text exDash0).length], [exDash0]) rfl

/-! ## C3 -/

/-- C3: whenever either file of the store pair is missing, `search_dashboards`
surfaces the generate-embeddings-first error instead of a normal result. -/
theorem search_missing_store_errors {V δ : Type} [LinearOrder δ]
    (embed : String → V) (store : Store V δ) (query : String) (top_k : Nat)
    (h : store.indexFile = none ∨ store.metaFile = none) :
    search_dashboards embed store query top_k =
      .missingStore "Please generate embeddings first for this workbook." := by
  obtain ⟨idxF, metaF⟩ := store
  rcases h with h | h <;> simp only at h <;> subst h
  · rfl
  · cases idxF <;> rfl

/-- Witness for C3 at a concrete store with a missing index file. -/
theorem search_missing_store_errors_witness :
    search_dashboards (fun _ => ()) missingStoreEx "profit" 3 =
      .missingStore "Please generate embeddings first for this workbook." :=
  search_missing_store_errors (fun _ => ()) missingStoreEx "profit" 3 (Or.inl rfl)

/-! ## C2 -/

/-- Every pair the collection loop keeps comes from a hit that passed the
`idx < len(metadata)` check and resolved through Python indexing. -/
theorem collect_results_mem {δ : Type} (metadata : List Dashboard) :
    ∀ (hits : List (δ × Int)) (res : List (Dashboard × δ)),
      collect_results metadata hits = some res →
      ∀ p ∈ res, ∃ dist idx, (dist, idx) ∈ hits ∧ idx < (metadata.length : Int) ∧
        pyGet metadata idx = some p.1 ∧ p.2 = dist := by
  intro hits
  induction hits with
  | nil =>
    intro res h p hp
    simp only [collect_results, Option.some.injEq] at h
    subst h
    simp at hp
  | cons hit rest ih =>
    intro res h p hp
    obtain ⟨dist, idx⟩ := hit
    rw [collect_results] at h
    by_cases hlt : idx < (metadata.length : Int)
    · rw [if_pos hlt] at h
      cases hget : pyGet metadata idx with
      | none => rw [hget] at h; exact absurd h (by simp)
      | some d =>
        rw [hget] at h
        cases hrec : collect_results metadata rest with
        | none => rw [hrec] at h; exact absurd h (by simp)
        | some res' =>
          rw [hrec] at h
          simp only [Option.some.injEq] at h
          subst h
          rcases List.mem_cons.mp hp with hp | hp
          · subst hp
            exact ⟨dist, idx, List.mem_cons_self .., hlt, hget, rfl⟩
          · obtain ⟨dist', idx', hmem, h1, h2, h3⟩ := ih res' hrec p hp
            exact ⟨dist', idx', List.mem_cons_of_mem _ hmem, h1, h2, h3⟩
    · rw [if_neg hlt] at h
      obtain ⟨dist', idx', hmem, h1, h2, h3⟩ := ih res h p hp
      exact ⟨dist', idx', List.mem_cons_of_mem _ hmem, h1, h2, h3⟩

/-- Membership is preserved by the stable distance-sort insertion. -/
theorem mem_insertByDist {δ : Type} [LinearOrder δ] (x p : Dashboard × δ) :
    ∀ l, p ∈ insertByDist x l ↔ p = x ∨ p ∈ l := by
  intro l
  induction l with
  | nil => simp [insertByDist]
  | cons y ys ih =>
    rw [insertByDist]
    by_cases hle : x.2 ≤ y.2
    · rw [if_pos hle]
      simp [List.mem_cons]
    · rw [if_neg hle]
      simp only [List.mem_cons, ih]
      tauto

/-- Membership is preserved by the distance sort. -/
theorem mem_sortByDist {δ : Type} [LinearOrder δ] (p : Dashboard × δ) :
    ∀ l, p ∈ sortByDist l ↔ p ∈ l := by
  intro l
  induction l with
  | nil => simp [sortByDist]
  | cons y ys ih =>
    show p ∈ insertByDist y (sortByDist ys) ↔ _
    rw [mem_insertByDist, ih]
    simp [List.mem_cons]

/-- C2 (amended): every `(Dashboard, distance)` pair a successful search
returns arises from a neighbour position `idx` that passed the
`idx < len(metadata)` upper-bound check and resolved through Python list
indexing — so positions `≥ len(metadata)` are always dropped, but a negative
position within `[-len, -1]` (faiss's `-1` missing-neighbour sentinel in
particular) is returned, resolved from the back of the metadata list, rather
than dropped. -/
theorem search_results_from_checked_positions {V δ : Type} [LinearOrder δ]
    (embed : String → V) (store : Store V δ) (query : String) (top_k : Nat)
    (indexSearch : V → Nat → List (δ × Int)) (metadata : List Dashboard)
    (res : List (Dashboard × δ))
    (hidx : store.indexFile = some indexSearch)
    (hmeta : store.metaFile = some metadata)
    (hok : search_dashboards embed store query top_k = .ok res) :
    ∀ p ∈ res, ∃ dist idx, (dist, idx) ∈ indexSearch (embed query) top_k ∧
      idx < (metadata.length : Int) ∧ pyGet metadata idx = some p.1 ∧ p.2 = dist := by
  intro p hp
  obtain ⟨idxF, metaF⟩ := store
  simp only at hidx hmeta
  subst hidx
  subst hmeta
  have hok' : (match collect_results metadata (indexSearch (embed query) top_k) with
      | none => SearchOutcome.crash
      | some results => SearchOutcome.ok (sortByDist results)) =
      SearchOutcome.ok res := hok
  cases hcol : collect_results metadata (indexSearch (embed query) top_k) with
  | none => rw [hcol] at hok'; exact absurd hok' (by simp)
  | some results =>
    rw [hcol] at hok'
    simp only [SearchOutcome.ok.injEq] at hok'
    subst hok'
    exact collect_results_mem metadata _ results hcol p ((mem_sortByDist p _).mp hp)

/-- C2 counterexample: with two stored dashboards and an index answer whose
only neighbour position is `-1` (not a valid position — it is negative), the
search still returns a pair, resolved to the *last* metadata entry by Python
negative indexing, instead of dropping the invalid position. -/
theorem search_stale_position_not_dropped :
    search_dashboards (fun _ => ()) staleStoreEx "profit" 5 = .ok [(exDash1, 5)] ∧
    staleIndexSearch () 5 = [(5, -1)] ∧
    ¬ (0 ≤ (-1 : Int)) := by
  refine ⟨rfl, rfl, by decide⟩

/-- Witness for C2 (amended): a concrete successful search over valid
positions, with the returned pair certified to come from a checked position. -/
theorem search_results_from_checked_positions_witness :
    ∃ dist idx, (dist, idx) ∈ okIndexSearch () 5 ∧
      idx < (([exDash0, exDash1] : List Dashboard).length : Int) ∧
      pyGet [exDash0, exDash1] idx = some (exDash0, (7 : Int)).1 ∧
      (exDash0, (7 : Int)).2 = dist :=
  search_results_from_checked_positions (fun _ => ()) okStoreEx "profit" 5
    okIndexSearch [exDash0, exDash1] [(exDash0, 7)] rfl rfl rfl
    (exDash0, 7) (List.mem_singleton_self _)

/-! ## C4 -/

/-- C4 (amended): `extract_dashboard_metadata` strips the fenced-code marker
and parses the remainder with `json.loads`; when parsing fails it raises a
`ValueError` carrying the cleaned model text, and when parsing succeeds it
returns the parsed value unconditionally — required Dashboard fields are
never validated, so a field-incomplete JSON object is returned, not
rejected. -/
theorem extract_dashboard_metadata_parse_behaviour
    (parse : String → Option Json) (responseText : String) :
    (parse (cleanModelOutput responseText) = none →
      extract_dashboard_metadata parse responseText =
        .error ("Gemini output is not valid JSON. Output was:\n"
          ++ cleanModelOutput responseText)) ∧
    (∀ j, parse (cleanModelOutput responseText) = some j →
      extract_dashboard_metadata parse responseText = .ok j) := by
  constructor
  · intro h
    rw [extract_dashboard_metadata]
    rw [h]
  · intro j h
    rw [extract_dashboard_metadata]
    rw [h]

/-- C4 counterexample: the model answers `"\x7b\x7d"` (the empty JSON
object), which is valid JSON but misses every required Dashboard field; the
extractor returns it as metadata instead of raising. -/
theorem extract_dashboard_metadata_no_field_validation :
    extract_dashboard_metadata jsonLoadsStub "\x7b\x7d" = .ok (Json.obj []) ∧
    hasRequiredFields (Json.obj []) = false :=
  ⟨rfl, rfl⟩

/-- Witness for C4 (amended): a fenced valid-JSON response is returned
parsed, and a non-JSON response raises the error carrying the cleaned text. -/
theorem extract_dashboard_metadata_parse_behaviour_witness :
    extract_dashboard_metadata jsonLoadsStub "```json\n\x7b\x7d\n```" =
      .ok (Json.obj []) ∧
    extract_dashboard_metadata jsonLoadsStub "nope" =
      .error ("Gemini output is not valid JSON. Output was:\n"
        ++ cleanModelOutput "nope") :=
  ⟨(extract_dashboard_metadata_parse_behaviour jsonLoadsStub
      "```json\n\x7b\x7d\n```").2 (Json.obj []) rfl,
   (extract_dashboard_metadata_parse_behaviour jsonLoadsStub "nope").1 rfl⟩

/-! ## C5 -/

/-- The heuristic batch loop accumulates exactly the successful results. -/
theorem process_all_pdfs_foldl (processFile : String → Except String Dashboard) :
    ∀ (pdfs : List String) (acc : List Dashboard),
      pdfs.foldl (fun out p => match processFile p with
                               | .ok m => out ++ [m]
                               | .error _ => out) acc
      = acc ++ pdfs.filterMap (fun p => (processFile p).toOption) := by
  intro pdfs
  induction pdfs with
  | nil => intro acc; simp
  | cons p ps ih =>
    intro acc
    rw [List.foldl_cons, List.filterMap_cons]
    cases hp : processFile p with
    | ok m => rw [ih]; simp [Except.toOption, hp]
    | error e => rw [ih]; simp [Except.toOption, hp]

/-- C5 (amended): the heuristic batch path (`process_all_pdfs`) isolates
per-file failures — its output is exactly the successful extractions in
listing order, so its length can be less than the PDF count but later files
survive an earlier failure; the LLM batch path (`process_workbook`) does
*not* catch per-document failures — whenever any PDF's read-and-extract step
raises, the whole workbook batch aborts with that error. -/
theorem batch_failure_isolation :
    (∀ (processFile : String → Except String Dashboard) (files : List String),
      process_all_pdfs processFile files =
        (pdfFilter files).filterMap (fun p => (processFile p).toOption) ∧
      (process_all_pdfs processFile files).length ≤ (pdfFilter files).length) ∧
    (∀ (step : String → String → Except String Json) (wb : String)
        (files : List String),
      (∃ f ∈ pdfFilter files, ∃ e, step (derive_dashboard_id wb f) f = .error e) →
      ∃ e, process_workbook step wb files = .error e) := by
  constructor
  · intro processFile files
    have h := process_all_pdfs_foldl processFile (pdfFilter files) []
    refine ⟨h, ?_⟩
    rw [show process_all_pdfs processFile files
        = (pdfFilter files).foldl _ [] from rfl, h]
    simpa using List.length_filterMap_le _ _
  · intro step wb files
    induction files with
    | nil => rintro ⟨f, hf, -⟩; simp [pdfFilter] at hf
    | cons f fs ih =>
      rintro ⟨g, hg, e, he⟩
      rw [process_workbook]
      by_cases hpdf : endsWithL ".pdf".data (lowerL f.data)
      · rw [if_pos hpdf]
        rcases hgf : step (derive_dashboard_id wb f) f with e' | m
        · exact ⟨e', rfl⟩
        · have hg' : g ∈ pdfFilter fs := by
            have : g = f ∨ g ∈ pdfFilter fs := by
              have := List.mem_filter.mp hg
              rcases List.mem_cons.mp this.1 with h | h
              · exact Or.inl h
              · exact Or.inr (List.mem_filter.mpr ⟨h, this.2⟩)
            rcases this with h | h
            · subst h; rw [hgf] at he; exact absurd he (by simp)
            · exact h
          obtain ⟨e2, he2⟩ := ih ⟨g, hg', e, he⟩
          rw [he2]
          exact ⟨e2, rfl⟩
      · rw [if_neg hpdf]
        refine ih ⟨g, ?_, e, he⟩
        have := List.mem_filter.mp hg
        rcases List.mem_cons.mp this.1 with h | h
        · subst h; exact absurd this.2 hpdf
        · exact List.mem_filter.mpr ⟨h, this.2⟩

/-- C5 counterexample: in the LLM path one unreadable PDF aborts the whole
workbook batch — with `bad.pdf` first, `good.pdf` is lost entirely, although
on its own it processes fine. -/
theorem process_workbook_aborts_on_failure :
    process_workbook llmStepFail "wb" ["bad.pdf", "good.pdf"] =
      .error "unreadable PDF" ∧
    process_workbook llmStepFail "wb" ["good.pdf"] = .ok [Json.obj []] :=
  ⟨rfl, rfl⟩

/-- Witness for C5 (amended): the abort conclusion instantiated at the
concrete failing workbook. -/
theorem batch_failure_isolation_witness :
    ∃ e, process_workbook llmStepFail "wb" ["bad.pdf", "good.pdf"] = .error e :=
  batch_failure_isolation.2 llmStepFail "wb" ["bad.pdf", "good.pdf"]
    ⟨"bad.pdf", by decide, "unreadable PDF", rfl⟩

/-! ## C8 -/

/-- `Char.ofNat` round-trips on valid code points. -/
theorem charOfNat_toNat (n : Nat) (h : n.isValidChar) :
    (Char.ofNat n).toNat = n := by
  simp [Char.ofNat, Char.toNat, h, Char.ofNatAux, UInt32.toNat,
    BitVec.toNat_ofNatLt]

/-- `asciiLower` never produces a space from a non-space. -/
theorem asciiLower_ne_space {c : Char} (hc : c ≠ ' ') : asciiLower c ≠ ' ' := by
  rw [asciiLower]
  split
  · next h =>
    intro heq
    have hval : (c.toNat + 32).isValidChar := by
      have h90 : c.toNat ≤ 90 := h.2
      exact Or.inl (by omega)
    have htn : (Char.ofNat (c.toNat + 32)).toNat = c.toNat + 32 :=
      charOfNat_toNat _ hval
    have h65 : 65 ≤ c.toNat := h.1
    have : (Char.ofNat (c.toNat + 32)).toNat = 32 := by rw [heq]; rfl
    omega
  · exact hc

/-- Lowercasing and space-to-underscore replacement commute per character. -/
theorem asciiLower_replaceSpace_comm (c : Char) :
    asciiLower (replaceSpaceChar c) = replaceSpaceChar (asciiLower c) := by
  by_cases hc : c = ' '
  · subst hc; decide
  · rw [replaceSpaceChar, if_neg hc, replaceSpaceChar,
      if_neg (asciiLower_ne_space hc)]

/-- C8 (amended): the workbook-prefixed id formula
`lowercase(workbook + "_" + stem(filename))` with spaces replaced by
underscores describes only the LLM path's derived id
(`process_workbook`); the heuristic path (`process_pdf_file`) sets `id` to
the bare filename stem, with no workbook prefix, no lowercasing and no space
replacement. -/
theorem dashboard_id_derivation :
    (∀ workbook_name file_name : String,
      derive_dashboard_id workbook_name file_name =
        pyReplaceSpace (pyLower (workbook_name ++ "_" ++ splitextStem file_name))) ∧
    (∀ (pageOcr : Nat → Nat → String) (numPages : Nat) (path : String)
        (blocks : List Block),
      (process_pdf_file pageOcr numPages path blocks).id =
        splitextStem (pyBasename path)) := by
  constructor
  · intro workbook_name file_name
    show String.mk (lowerL
        ((workbook_name ++ "_" ++ splitextStem file_name).data.map replaceSpaceChar))
      = String.mk ((lowerL
        (workbook_name ++ "_" ++ splitextStem file_name).data).map replaceSpaceChar)
    rw [lowerL, lowerL, List.map_map, List.map_map]
    congr 1
    exact List.map_congr_left (fun c _ => asciiLower_replaceSpace_comm c)
  · intro pageOcr numPages path blocks
    rfl

/-- C8 counterexample: on the heuristic path a file `pdfs/My Dash.pdf` gets
id `"My Dash"`, not the claimed `"pdfs_my_dash"` (no workbook prefix, not
lower-cased, spaces kept). -/
theorem heuristic_id_differs_from_formula :
    (process_pdf_file (fun _ _ => "") 0 "pdfs/My Dash.pdf" []).id = "My Dash" ∧
    pyReplaceSpace (pyLower ("pdfs" ++ "_" ++ splitextStem "My Dash.pdf")) =
      "pdfs_my_dash" ∧
    ("My Dash" : String) ≠ "pdfs_my_dash" := by
  refine ⟨rfl, by decide, by decide⟩

/-! ## C9 -/

/-- C9: when the stripped space-joined block text is shorter than 50
characters, `process_pdf_file` analyses the OCR text — each page rasterised
at 200 dpi, capped at 10 pages, newline-joined; when it is 50 characters or
longer, the direct extraction text is used and the OCR collaborator is never
invoked (the acquired text does not depend on it). -/
theorem ocr_fallback_threshold (pageOcr : Nat → Nat → String) (numPages : Nat)
    (blocks : List Block) :
    ((pyStripL (blocksFullText blocks).data).length < 50 →
      acquiredFullText pageOcr numPages blocks = ocr_pdf pageOcr numPages 200 10 ∧
      ocr_pdf pageOcr numPages 200 10 =
        pyJoin "\n" ((List.range (min 10 numPages)).map (fun i => pageOcr 200 i))) ∧
    (50 ≤ (pyStripL (blocksFullText blocks).data).length →
      acquiredFullText pageOcr numPages blocks = blocksFullText blocks ∧
      ∀ pageOcr2 : Nat → Nat → String,
        acquiredFullText pageOcr2 numPages blocks =
          acquiredFullText pageOcr numPages blocks) := by
  constructor
  · intro h
    have hb : ocrFallbackUsed blocks = true := by
      rw [ocrFallbackUsed]; exact decide_eq_true h
    constructor
    · rw [acquiredFullText, if_pos hb]
    · rfl
  · intro h
    have hb : ocrFallbackUsed blocks = false := by
      rw [ocrFallbackUsed]
      exact decide_eq_false (Nat.not_lt.mpr h)
    constructor
    · rw [acquiredFullText, if_neg (by simp [hb])]
    · intro pageOcr2
      rw [acquiredFullText, if_neg (by simp [hb]),
        acquiredFullText, if_neg (by simp [hb])]

/-- Witness for C9: a 30-character document takes the OCR path, a
62-character document takes the direct path and ignores the OCR
collaborator. -/
theorem ocr_fallback_threshold_witness :
    (acquiredFullText ocrStub 3 [shortBlock] = ocr_pdf ocrStub 3 200 10 ∧
      ocr_pdf ocrStub 3 200 10 =
        pyJoin "\n" ((List.range (min 10 3)).map (fun i => ocrStub 200 i))) ∧
    (acquiredFullText ocrStub 3 [longBlock] = blocksFullText [longBlock] ∧
      ∀ pageOcr2 : Nat → Nat → String,
        acquiredFullText pageOcr2 3 [longBlock] =
          acquiredFullText ocrStub 3 [longBlock]) :=
  ⟨(ocr_fallback_threshold ocrStub 3 [shortBlock]).1 (by decide),
   (ocr_fallback_threshold ocrStub 3 [longBlock]).2 (by decide)⟩

/-! ## C7 -/

/-- The head of the stable descending sort is the first block attaining the
maximal key: it is an element of the list, no key exceeds its key, and every
earlier element has a strictly smaller key. -/
theorem sortBlocksDesc_head :
    ∀ (l : List Block), l ≠ [] →
      ∃ i, ∃ hi : i < l.length,
        (sortBlocksDesc l).head? = some (l.get ⟨i, hi⟩) ∧
        (∀ j (hj : j < l.length), blockKey (l.get ⟨j, hj⟩) ≤ blockKey (l.get ⟨i, hi⟩)) ∧
        (∀ j (hj : j < i),
          blockKey (l.get ⟨j, Nat.lt_trans hj hi⟩) < blockKey (l.get ⟨i, hi⟩)) := by
  intro l
  induction l with
  | nil => intro h; exact absurd rfl h
  | cons c cs ih =>
    intro _
    by_cases hcs : cs = []
    · subst hcs
      refine ⟨0, by simp, rfl, ?_, ?_⟩
      · intro j hj
        have : j = 0 := by simpa using hj
        subst this
        exact le_refl _
      · intro j hj
        exact absurd hj (Nat.not_lt_zero j)
    · obtain ⟨i', hi', hhead, hmax, hfirst⟩ := ih hcs
      have hsort : sortBlocksDesc (c :: cs) = insertDesc c (sortBlocksDesc cs) := rfl
      cases hs : sortBlocksDesc cs with
      | nil => rw [hs] at hhead; simp at hhead
      | cons m tl =>
        rw [hs] at hhead
        simp only [List.head?_cons, Option.some.injEq] at hhead
        by_cases hlt : blockKey c < blockKey m
        · refine ⟨i' + 1, by simpa using Nat.succ_lt_succ hi', ?_, ?_, ?_⟩
          · rw [hsort, hs, insertDesc, if_pos hlt]
            simpa using hhead
          · intro j hj
            cases j with
            | zero =>
              simpa [hhead] using le_of_lt hlt
            | succ j' =>
              have hj' : j' < cs.length := by simpa using hj
              simpa using hmax j' hj'
          · intro j hj
            cases j with
            | zero => simpa [hhead] using hlt
            | succ j' =>
              have hj' : j' < i' := by omega
              simpa using hfirst j' hj'
        · refine ⟨0, by simp, ?_, ?_, ?_⟩
          · rw [hsort, hs, insertDesc, if_neg hlt]
            rfl
          · intro j hj
            cases j with
            | zero => exact le_refl _
            | succ j' =>
              have hj' : j' < cs.length := by simpa using hj
              have h1 := hmax j' hj'
              have h2 : blockKey m ≤ blockKey c := not_lt.mp hlt
              have h3 : blockKey (cs.get ⟨j', hj'⟩) ≤ blockKey m := by
                rw [hhead]; exact h1
              simpa using le_trans h3 h2
          · intro j hj
            exact absurd hj (Nat.not_lt_zero j)

/-- C7: on a non-empty block list the chosen title is the stripped text of a
candidate block (page-0 blocks when any exist, else all blocks) whose key is
maximal, every earlier candidate having a strictly smaller key (ties broken
by first occurrence in reading order); on the spec's example blocks the
result is title `"B"` with description `"A C"` (built from the remaining
distinct blocks, the title excluded). -/
theorem choose_title_rule :
    (∀ blocks : List Block, blocks ≠ [] →
      ∃ i, ∃ hi : i < (candidateBlocks blocks).length,
        (choose_title_and_description blocks).1 =
          pyStrip ((candidateBlocks blocks).get ⟨i, hi⟩).text ∧
        (∀ j (hj : j < (candidateBlocks blocks).length),
          blockKey ((candidateBlocks blocks).get ⟨j, hj⟩) ≤
            blockKey ((candidateBlocks blocks).get ⟨i, hi⟩)) ∧
        (∀ j (hj : j < i),
          blockKey ((candidateBlocks blocks).get ⟨j, Nat.lt_trans hj hi⟩) <
            blockKey ((candidateBlocks blocks).get ⟨i, hi⟩))) ∧
    choose_title_and_description exBlocks = ("B", "A C") := by
  constructor
  · intro blocks hblocks
    have hcand : candidateBlocks blocks ≠ [] := by
      show (if (blocks.filter (fun b => b.page = 0)).isEmpty then blocks
            else blocks.filter (fun b => b.page = 0)) ≠ []
      by_cases hfp : (blocks.filter (fun b => b.page = 0)).isEmpty
      · rw [if_pos hfp]; exact hblocks
      · rw [if_neg hfp]
        intro hc
        exact hfp (by rw [hc]; rfl)
    obtain ⟨i, hi, hhead, hmax, hfirst⟩ := sortBlocksDesc_head (candidateBlocks blocks) hcand
    refine ⟨i, hi, ?_, hmax, hfirst⟩
    cases blocks with
    | nil => exact absurd rfl hblocks
    | cons b bs =>
      show (match sortBlocksDesc (candidateBlocks (b :: bs)) with
            | [] => ""
            | bb :: _ => pyStrip bb.text) = _
      cases hs : sortBlocksDesc (candidateBlocks (b :: bs)) with
      | nil => rw [hs] at hhead; simp at hhead
      | cons m tl =>
        rw [hs] at hhead
        simp only [List.head?_cons, Option.some.injEq] at hhead
        show pyStrip m.text = pyStrip ((candidateBlocks (b :: bs)).get ⟨i, hi⟩).text
        rw [hhead]
  · decide

/-- Witness for C7's general part at the spec's example blocks. -/
theorem choose_title_rule_witness :
    ∃ i, ∃ hi : i < (candidateBlocks exBlocks).length,
      (choose_title_and_description exBlocks).1 =
        pyStrip ((candidateBlocks exBlocks).get ⟨i, hi⟩).text ∧
      (∀ j (hj : j < (candidateBlocks exBlocks).length),
        blockKey ((candidateBlocks exBlocks).get ⟨j, hj⟩) ≤
          blockKey ((candidateBlocks exBlocks).get ⟨i, hi⟩)) ∧
      (∀ j (hj : j < i),
        blockKey ((candidateBlocks exBlocks).get ⟨j, Nat.lt_trans hj hi⟩) <
          blockKey ((candidateBlocks exBlocks).get ⟨i, hi⟩)) :=
  choose_title_rule.1 exBlocks (by decide)

/-! ## C6 -/

/-- Every KPI surviving the final dedup pass has a lower-cased name outside
the ambient `seen` set, and originates from the first candidate carrying
that case-insensitive name: its fields are the stripped name and the
description of a candidate at some position `i`, every earlier candidate
having a different lower-cased stripped name. -/
theorem kpiFinalDedup_spec :
    ∀ (ks : List Kpi) (seen : List (List Char)), ∀ k' ∈ kpiFinalDedup seen ks,
      lowerL k'.name.data ∉ seen ∧
      ∃ i, ∃ hi : i < ks.length,
        k'.name = String.mk (pyStripL (ks.get ⟨i, hi⟩).name.data) ∧
        k'.description = (ks.get ⟨i, hi⟩).description ∧
        ∀ j (hj : j < i),
          lowerL (pyStripL (ks.get ⟨j, Nat.lt_trans hj hi⟩).name.data) ≠
            lowerL k'.name.data := by
  intro ks
  induction ks with
  | nil =>
    intro seen k' hk'
    simp [kpiFinalDedup] at hk'
  | cons k ks ih =>
    intro seen k' hk'
    have hstep : kpiFinalDedup seen (k :: ks) =
        if lowerL (pyStripL k.name.data) ∈ seen then kpiFinalDedup seen ks
        else ⟨String.mk (pyStripL k.name.data), k.description⟩ ::
          kpiFinalDedup (lowerL (pyStripL k.name.data) :: seen) ks := rfl
    rw [hstep] at hk'
    by_cases hln : lowerL (pyStripL k.name.data) ∈ seen
    · rw [if_pos hln] at hk'
      obtain ⟨hnot, i, hi, hname, hdesc, hprev⟩ := ih seen k' hk'
      refine ⟨hnot, i + 1, Nat.succ_lt_succ hi, by simpa using hname,
        by simpa using hdesc, ?_⟩
      intro j hj
      cases j with
      | zero =>
        intro heq
        exact hnot (heq ▸ hln)
      | succ j' =>
        have hj' : j' < i := by omega
        simpa using hprev j' hj'
    · rw [if_neg hln] at hk'
      rcases List.mem_cons.mp hk' with hk' | hk'
      · subst hk'
        exact ⟨hln, 0, Nat.succ_pos _, rfl, rfl,
          fun j hj => absurd hj (Nat.not_lt_zero j)⟩
      · obtain ⟨hnot, i, hi, hname, hdesc, hprev⟩ :=
          ih (lowerL (pyStripL k.name.data) :: seen) k' hk'
        have hne : lowerL k'.name.data ≠ lowerL (pyStripL k.name.data) :=
          fun heq => hnot (heq ▸ List.mem_cons_self ..)
        refine ⟨fun hmem => hnot (List.mem_cons_of_mem _ hmem),
          i + 1, Nat.succ_lt_succ hi, by simpa using hname,
          by simpa using hdesc, ?_⟩
        intro j hj
        cases j with
        | zero => exact fun heq => hne heq.symm
        | succ j' =>
          have hj' : j' < i := by omega
          simpa using hprev j' hj'

/-- The final dedup pass leaves no two KPIs with case-insensitively equal
names. -/
theorem kpiFinalDedup_pairwise :
    ∀ (ks : List Kpi) (seen : List (List Char)),
      (kpiFinalDedup seen ks).Pairwise
        (fun a b => lowerL a.name.data ≠ lowerL b.name.data) := by
  intro ks
  induction ks with
  | nil => intro seen; exact List.Pairwise.nil
  | cons k ks ih =>
    intro seen
    have hstep : kpiFinalDedup seen (k :: ks) =
        if lowerL (pyStripL k.name.data) ∈ seen then kpiFinalDedup seen ks
        else ⟨String.mk (pyStripL k.name.data), k.description⟩ ::
          kpiFinalDedup (lowerL (pyStripL k.name.data) :: seen) ks := rfl
    rw [hstep]
    by_cases hln : lowerL (pyStripL k.name.data) ∈ seen
    · rw [if_pos hln]; exact ih seen
    · rw [if_neg hln]
      refine List.Pairwise.cons ?_ (ih _)
      intro b hb
      have hnot := (kpiFinalDedup_spec ks _ b hb).1
      intro heq
      exact hnot (by rw [← heq]; exact List.mem_cons_self ..)

set_option maxRecDepth 100000 in
/-- C6: the KPI detector's output names are deduplicated case-insensitively
— pairwise distinct after lowering — and each returned KPI carries the name
and description of the *first* candidate (across both detection layers) with
its case-insensitive name; on the spec's example input
`"Profit Margin: -35%\nProfit margin: 10%"` the result is the single KPI
named `"Profit Margin"`. -/
theorem extract_kpis_dedup_first_wins :
    (∀ text : String,
      (extract_kpis_from_text text).Pairwise
        (fun a b => lowerL a.name.data ≠ lowerL b.name.data) ∧
      ∀ k ∈ extract_kpis_from_text text,
        ∃ i, ∃ hi : i < (kpiCandidates text).length,
          k.name = String.mk (pyStripL ((kpiCandidates text).get ⟨i, hi⟩).name.data) ∧
          k.description = ((kpiCandidates text).get ⟨i, hi⟩).description ∧
          ∀ j (hj : j < i),
            lowerL (pyStripL ((kpiCandidates text).get ⟨j, Nat.lt_trans hj hi⟩).name.data)
              ≠ lowerL k.name.data) ∧
    extract_kpis_from_text "Profit Margin: -35%\nProfit margin: 10%" =
      [⟨"Profit Margin", "Detected value: 35%"⟩] := by
  refine ⟨fun text => ⟨kpiFinalDedup_pairwise (kpiCandidates text) [], ?_⟩, by decide⟩
  intro k hk
  exact (kpiFinalDedup_spec (kpiCandidates text) [] k hk).2

set_option maxRecDepth 100000 in
/-- Witness for C6 at the spec's example input: its single KPI is certified
to be the first candidate with its case-insensitive name. -/
theorem extract_kpis_dedup_first_wins_witness :
    ∃ i, ∃ hi : i <
        (kpiCandidates "Profit Margin: -35%\nProfit margin: 10%").length,
      (Kpi.mk "Profit Margin" "Detected value: 35%").name =
        String.mk (pyStripL ((kpiCandidates
          "Profit Margin: -35%\nProfit margin: 10%").get ⟨i, hi⟩).name.data) ∧
      (Kpi.mk "Profit Margin" "Detected value: 35%").description =
        ((kpiCandidates "Profit Margin: -35%\nProfit margin: 10%").get ⟨i, hi⟩).description ∧
      ∀ j (hj : j < i),
        lowerL (pyStripL ((kpiCandidates
          "Profit Margin: -35%\nProfit margin: 10%").get ⟨j, Nat.lt_trans hj hi⟩).name.data)
          ≠ lowerL (Kpi.mk "Profit Margin" "Detected value: 35%").name.data :=
  (extract_kpis_dedup_first_wins.1 "Profit Margin: -35%\nProfit margin: 10%").2
    (Kpi.mk "Profit Margin" "Detected value: 35%")
    (by rw [extract_kpis_dedup_first_wins.2]; exact List.mem_singleton_self _)

end TablueMeta
